import Mathlib

/-! Verification of the governance workflow engine of the document-management
backend (FastAPI + SQLAlchemy).  The definitions below are a shallow
embedding of the Python source: rows become structures, the mutable
session becomes explicit state passing, and each endpoint body becomes a
function returning `Except` for the HTTPException paths.  Components that
the endpoints import from modules absent from the source tree
(app.core.approval_policies, app.core.rbac, app.services.governance,
ProjectMember.is_active) are modelled from the specification and marked as
such in their doc comments.
-/

namespace DMSGov

/-- A document version row (app/models/entities.py, class DocumentVersion).
Fields not touched by the workflow operations (content, template, file
references) are omitted; timestamps are abstract naturals supplied by the
caller as the clock. -/
structure DocumentVersion where
  state : String
  created_by : Nat
  submitted_at : Option Nat
  locked_at : Option Nat
deriving Repr, DecidableEq

/-- An approval-step row (app/models/entities.py, class Approval). -/
structure Approval where
  step_no : Nat
  role_required : String
  approver_user_id : Option Nat
  status : String
  comment : Option String
  signed_at : Option Nat
  evidence_hash : Option String
deriving Repr, DecidableEq

/-- A project-membership row (app/models/entities.py, class ProjectMember). -/
structure ProjectMember where
  user_id : Nat
  role_code : String
  is_temporary : Bool
  expires_at : Option Nat
deriving Repr, DecidableEq

/-- Modelled from the spec: ProjectMember.is_active (the model module
carrying this method is not in the source tree).  Spec section 3: a
membership is active iff expires_at is null or in the future. -/
def ProjectMember.isActive (m : ProjectMember) (now : Nat) : Bool :=
  match m.expires_at with
  | none => true
  | some t => now < t

/-- One step of a resolved approval policy.  Modelled from the spec
(section 3, ApprovalPolicy): the module app.core.approval_policies is not
in the source tree. -/
structure PolicyStep where
  step_no : Nat
  role_required : String
  is_optional : Bool
deriving Repr, DecidableEq

/-- Modelled from the spec: ApprovalPolicy.get_final_step.  Spec section 3:
the final step is the highest step_no among required (non-optional) steps. -/
def getFinalStep (policy : List PolicyStep) : Option PolicyStep :=
  (policy.filter (fun s => !s.is_optional)).foldl
    (fun acc s =>
      match acc with
      | none => some s
      | some b => if b.step_no < s.step_no then some s else some b)
    none

/-- A workflow task row, restricted to the fields the document endpoints
touch (app/models/entities.py, class Task). -/
structure WTask where
  related_document_version_id : Option Nat
  status : String
  completed_at : Option Nat
deriving Repr, DecidableEq

/-- The HTTPException exits of the approve/reject endpoints, by the guard
that raised them.  httpStatus maps each to the status code raised in the
source: the wrong-state guard raises 400, all others raise 403 FORBIDDEN. -/
inductive ApproveErr where
  | invalidState (s : String)
  | notMember
  | temporaryMemberSoD
  | noPendingForRole
  | authorSoD
  | reviewerSoD
deriving Repr, DecidableEq

def ApproveErr.httpStatus : ApproveErr → Nat
  | .invalidState _ => 400
  | _ => 403

/-- The three SoD-guard failures; the spec error taxonomy (section 7) calls
every one of them PermissionDenied. -/
def ApproveErr.isSoDDenied : ApproveErr → Bool
  | .temporaryMemberSoD => true
  | .authorSoD => true
  | .reviewerSoD => true
  | _ => false

/-- The ORM query .filter(document_version, role_required, status PENDING)
restricted to one version: the pending approvals for a role. -/
def pendingForRole (approvals : List Approval) (role : String) : List Approval :=
  approvals.filter (fun a => a.role_required = role && a.status = "PENDING")

/-- ORDER BY step_no followed by .first(): the element with the least
step_no, keeping the earliest row on ties. -/
def firstMinByStep : List Approval → Option Approval
  | [] => none
  | a :: rest =>
    match firstMinByStep rest with
    | none => some a
    | some b => if b.step_no < a.step_no then some b else some a

/-- In-place mutation of one fetched row: replace the first list element
equal to the fetched one. -/
def replaceFirst (l : List Approval) (old new : Approval) : List Approval :=
  match l with
  | [] => []
  | a :: rest => if a = old then new :: rest else a :: replaceFirst rest old new

/-- Closing the open tasks of a version on completion or rejection
(api/v1/documents.py: tasks with status OPEN or IN_PROGRESS referencing
the version move to CLOSED with completed_at = now). -/
def closeVersionTasks (now : Nat) (versionId : Nat) (tasks : List WTask) : List WTask :=
  tasks.map (fun t =>
    if t.related_document_version_id = some versionId &&
        (t.status = "OPEN" || t.status = "IN_PROGRESS") then
      { t with status := "CLOSED", completed_at := some now }
    else t)

/-- The state written back by a successful approve or reject call. -/
structure WorkflowOk where
  version : DocumentVersion
  approvals : List Approval
  tasks : List WTask
  is_final : Bool
deriving Repr, DecidableEq

/-- Embedding of approve_version (src/backend/app/api/v1/documents.py,
lines 277-414).  Inputs: the resolved policy of the document type (the
resolver module is modelled from the spec), the clock, the version row and
its id, the approval rows of the version, the membership row of the acting user
for the project (none when no row exists), the user ids that left a
ReviewComment on the version, the task rows, the acting user and the
request payload.  The document lookup and audit logging are outside the
modelled state.  The chain of guards mirrors the source order: state check,
membership check, temporary-member SoD check, pending-step lookup by role,
author SoD check, reviewer SoD check; the three check_sod functions of
app.core.rbac are not in the source tree and are modelled from the spec
(section 4.4): each raises on its stated condition, the reviewer check
being invoked with reviewer = approver = the current user whenever that
user has commented. -/
def approve_version (policy : List PolicyStep) (now : Nat)
    (versionId : Nat) (version : DocumentVersion) (approvals : List Approval)
    (member : Option ProjectMember) (commenters : List Nat)
    (tasks : List WTask) (currentUser : Nat)
    (comment : Option String) (evidence_hash : Option String) :
    Except ApproveErr WorkflowOk :=
  if version.state ≠ "IN_REVIEW" then .error (.invalidState version.state)
  else
    match member with
    | none => .error .notMember
    | some m =>
      if ¬ m.isActive now then .error .notMember
      else if m.is_temporary then .error .temporaryMemberSoD
      else
        match firstMinByStep (pendingForRole approvals m.role_code) with
        | none => .error .noPendingForRole
        | some p =>
          if version.created_by = currentUser then .error .authorSoD
          else if currentUser ∈ commenters then .error .reviewerSoD
          else
            let p' : Approval :=
              { p with status := "APPROVED", approver_user_id := some currentUser,
                       comment := comment, signed_at := some now,
                       evidence_hash := evidence_hash }
            let approvals' := replaceFirst approvals p p'
            let final_step := getFinalStep policy
            let is_final_approval :=
              match final_step with
              | some fs => p.step_no = fs.step_no
              | none => false
            -- policy_steps is a dict step_no -> step; required approvals are
            -- those whose step exists in the policy and is not optional
            let required_approvals := approvals'.filter (fun a =>
              match policy.find? (fun s => s.step_no = a.step_no) with
              | some s => !s.is_optional
              | none => false)
            let approved_required :=
              required_approvals.filter (fun a => a.status = "APPROVED")
            if is_final_approval = true ∧
                approved_required.length = required_approvals.length then
              let version' :=
                { version with state := "APPROVED", locked_at := some now }
              .ok { version := version', approvals := approvals',
                    tasks := closeVersionTasks now versionId tasks,
                    is_final := is_final_approval }
            else
              .ok { version := version, approvals := approvals',
                    tasks := tasks, is_final := is_final_approval }

/-- Embedding of reject_version (src/backend/app/api/v1/documents.py,
lines 417-511).  The targeted step is the first PENDING approval for the
role of the acting user (the source query has no order_by here); it is marked
REJECTED with the comment of the caller, then every other still-PENDING
approval is marked REJECTED with the annotated cascade comment, the
version returns to DRAFT, and the open tasks of the version are closed. -/
def reject_version (now : Nat) (versionId : Nat)
    (version : DocumentVersion) (approvals : List Approval)
    (member : Option ProjectMember) (tasks : List WTask)
    (currentUser : Nat) (comment : String) :
    Except ApproveErr WorkflowOk :=
  if version.state ≠ "IN_REVIEW" then .error (.invalidState version.state)
  else
    match member with
    | none => .error .notMember
    | some m =>
      if ¬ m.isActive now then .error .notMember
      else
        match (pendingForRole approvals m.role_code).head? with
        | none => .error .noPendingForRole
        | some p =>
          let p' : Approval :=
            { p with status := "REJECTED", approver_user_id := some currentUser,
                     comment := some comment, signed_at := some now }
          let approvals1 := replaceFirst approvals p p'
          let cascadeComment :=
            "Rejected due to rejection at step " ++ toString p.step_no
          let approvals2 := approvals1.map (fun a =>
            if a.status = "PENDING" then
              { a with status := "REJECTED", comment := some cascadeComment }
            else a)
          .ok { version := { version with state := "DRAFT" },
                approvals := approvals2,
                tasks := closeVersionTasks now versionId tasks,
                is_final := false }

/-- Embedding of reject_version of the second documents API
(src/backend/app/api/documents.py, lines 367-442).  Here the pending step
is the first PENDING approval whose required role is among the acting
roles of the user in the project (get_user_roles_in_project lives in the
governance service, absent from the source tree; modelled from the spec as
the role codes of the memberships of the user).  Only the targeted step is
rejected and the version returns to DRAFT: there is no cascade over the
other PENDING steps and no task closing in this variant. -/
def api_reject_version (now : Nat) (version : DocumentVersion)
    (approvals : List Approval) (userRoles : List String)
    (currentUser : Nat) (comment : String) :
    Except ApproveErr (DocumentVersion × List Approval) :=
  if version.state ≠ "IN_REVIEW" then .error (.invalidState version.state)
  else
    match approvals.find? (fun a =>
        a.status = "PENDING" && userRoles.contains a.role_required) with
    | none => .error .noPendingForRole
    | some p =>
      let p' : Approval :=
        { p with status := "REJECTED", approver_user_id := some currentUser,
                 comment := some comment, signed_at := some now }
      .ok ({ version with state := "DRAFT" }, replaceFirst approvals p p')

/-- Embedding of submit_version (src/backend/app/routers/documents.py,
lines 364-382), the submit endpoint wired into app/main.py.  After the
lookup it performs no state check at all: it sets the state to IN_REVIEW
and writes both submitted_at and locked_at with the current time,
whatever the previous state was. -/
def submit_version (now : Nat) (version : DocumentVersion) : DocumentVersion :=
  { version with state := "IN_REVIEW",
                 submitted_at := some now, locked_at := some now }

/-! Interleaving model of the step-status mutation.  In
src/backend/app/api/v1/documents.py, lines 320-357, an approve call first
SELECTs the pending approval row and later, at commit, issues a plain
UPDATE by primary key: a read followed by an unconditional write.  The
spec instead mandates one conditional write (UPDATE ... WHERE status =
PENDING) whose loser observes zero affected rows.  Both disciplines are
modelled over a shared status cell; a schedule picks which of two calls
performs its next database step. -/

/-- Progress of one approve call against the shared step row: before its
SELECT, after having observed PENDING, or finished. -/
inductive CallPhase where
  | ready
  | observed
  | succeeded
  | failed
deriving Repr, DecidableEq

/-- One database step of a call.  With conditional = false this is the
read-then-write discipline of the source (the UPDATE never looks at the
status).  With conditional = true it is the compare-and-swap write the
spec mandates, failing when the status is no longer PENDING. -/
def stepCall (conditional : Bool) (status : String) :
    CallPhase → String × CallPhase
  | .ready =>
    if status = "PENDING" then (status, .observed) else (status, .failed)
  | .observed =>
    if conditional then
      if status = "PENDING" then ("APPROVED", .succeeded)
      else (status, .failed)
    else ("APPROVED", .succeeded)
  | c => (status, c)

/-- Shared state of two concurrent approve calls on one PENDING step. -/
structure Race where
  status : String
  a : CallPhase
  b : CallPhase
deriving Repr, DecidableEq

def stepRace (conditional : Bool) (r : Race) (pickA : Bool) : Race :=
  if pickA then
    let (s, a') := stepCall conditional r.status r.a
    { r with status := s, a := a' }
  else
    let (s, b') := stepCall conditional r.status r.b
    { r with status := s, b := b' }

/-- Run a schedule of database steps from the initial PENDING row with
both calls ready. -/
def runRace (conditional : Bool) (sched : List Bool) : Race :=
  sched.foldl (stepRace conditional) ⟨"PENDING", .ready, .ready⟩

/-- The invariant of the conditional-write discipline: the row leaves
PENDING only for APPROVED, it is APPROVED exactly when someone has
succeeded, at most one call succeeds, and a call fails only after the
other has succeeded. -/
def RaceInv (r : Race) : Prop :=
  (r.status = "PENDING" ∨ r.status = "APPROVED") ∧
  (r.status = "PENDING" ↔ (r.a ≠ .succeeded ∧ r.b ≠ .succeeded)) ∧
  ¬(r.a = .succeeded ∧ r.b = .succeeded) ∧
  (r.a = .failed → r.b = .succeeded) ∧
  (r.b = .failed → r.a = .succeeded)

theorem raceInv_init : RaceInv ⟨"PENDING", .ready, .ready⟩ := by
  refine ⟨Or.inl rfl, ?_, ?_, ?_, ?_⟩ <;> simp

theorem raceInv_step (r : Race) (hr : RaceInv r) (pickA : Bool) :
    RaceInv (stepRace true r pickA) := by
  obtain ⟨hdom, hiff, hone, hfa, hfb⟩ := hr
  cases pickA <;>
    simp only [stepRace, stepCall, if_true, if_false, Bool.false_eq_true] <;>
    [cases hb : r.b; cases ha : r.a] <;>
    simp only [stepCall] <;>
    rcases hdom with hst | hst <;>
    simp_all [RaceInv]

theorem raceInv_run (sched : List Bool) : RaceInv (runRace true sched) := by
  rw [runRace]
  induction sched using List.reverseRecOn with
  | nil => exact raceInv_init
  | append_singleton l x ih =>
    rw [List.foldl_append, List.foldl_cons, List.foldl_nil]
    exact raceInv_step _ ih x

/-- Under the conditional-write discipline of the spec, any schedule that
runs both calls to completion leaves exactly one of them succeeded. -/
theorem conditional_write_exactly_one (sched : List Bool)
    (ha : (runRace true sched).a = .succeeded ∨ (runRace true sched).a = .failed)
    (hb : (runRace true sched).b = .succeeded ∨ (runRace true sched).b = .failed) :
    ((runRace true sched).a = .succeeded ∧ (runRace true sched).b = .failed) ∨
    ((runRace true sched).a = .failed ∧ (runRace true sched).b = .succeeded) := by
  have hinv := raceInv_run sched
  obtain ⟨hdom, hiff, hone, hfa, hfb⟩ := hinv
  rcases ha with ha | ha <;> rcases hb with hb | hb
  · exact absurd ⟨ha, hb⟩ hone
  · exact Or.inl ⟨ha, hb⟩
  · exact Or.inr ⟨ha, hb⟩
  · exact absurd (hfa ha) (by simp [hb])

/-! Shared concrete fixtures for the workflow theorems, taken from the
example scenario of spec section 8. -/

/-- The resolved two-step policy of doc type PDD in the spec example. -/
def policyPDD : List PolicyStep :=
  [⟨1, "Architect", false⟩, ⟨2, "Business Owner", false⟩]

/-- A freshly created approval step, as the step factory writes it. -/
def pendingStep (n : Nat) (role : String) : Approval :=
  ⟨n, role, none, "PENDING", none, none, none⟩

/-- A permanent, non-expiring project membership. -/
def memberOf (uid : Nat) (role : String) : ProjectMember :=
  ⟨uid, role, false, none⟩

/-- C1.  The claim states that a successful approve moves the version to
APPROVED if and only if afterwards every non-optional step is APPROVED,
regardless of approval order.  The code disagrees: approve_version only
transitions when, in addition, the step just approved is the final policy
step (is_final_approval, api/v1/documents.py lines 361-378).  Concretely,
under the PDD policy, the Business Owner approves step 2 first and the
Architect then approves step 1: both calls succeed, every step is
APPROVED, yet the version remains IN_REVIEW and unlocked (and no PENDING
step is left, so it can never be approved again). -/
theorem approve_out_of_order_stalls :
    ∃ ok1 ok2,
      approve_version policyPDD 20 7
        ⟨"IN_REVIEW", 1, some 10, none⟩
        [pendingStep 1 "Architect", pendingStep 2 "Business Owner"]
        (some (memberOf 3 "Business Owner")) [] [] 3 none none = .ok ok1 ∧
      approve_version policyPDD 30 7 ok1.version ok1.approvals
        (some (memberOf 2 "Architect")) [] [] 2 none none = .ok ok2 ∧
      ok2.approvals.all (fun a => a.status = "APPROVED") = true ∧
      ok2.version.state = "IN_REVIEW" ∧
      ok2.version.locked_at = none := by
  refine ⟨_, _, rfl, rfl, ?_, ?_, ?_⟩ <;> rfl

/-- C2.  The claim states the invariant that locked_at is set iff the
state is APPROVED in every reachable state.  The submit endpoint that
app/main.py wires in (routers/documents.py submit_version) breaks it on
its first use: submitting a DRAFT version writes locked_at together with
state IN_REVIEW. -/
theorem submit_version_sets_locked_at_in_review :
    (submit_version 5 ⟨"DRAFT", 1, none, none⟩).state = "IN_REVIEW" ∧
    (submit_version 5 ⟨"DRAFT", 1, none, none⟩).locked_at = some 5 :=
  ⟨rfl, rfl⟩

/-- C3.  The claim states that submitting a non-DRAFT version always
fails InvalidTransition and leaves the version unchanged.  The wired
submit endpoint (routers/documents.py submit_version) performs no state
check: on a version already APPROVED (and locked) it succeeds and
overwrites state, submitted_at and locked_at. -/
theorem submit_version_succeeds_on_approved :
    submit_version 9 ⟨"APPROVED", 1, some 1, some 2⟩ =
      ⟨"IN_REVIEW", 1, some 9, some 9⟩ := rfl

/-- C4.  Approving as the author of the version always fails with a
segregation-of-duties PermissionDenied, whatever the step and role: once
the call reaches the SoD guards (version in review, acting user an active
member, a pending step for the role of the user), a version whose creator is
the acting user is rejected either by the temporary-member guard or by
the author guard, both PermissionDenied; no state is written. -/
theorem author_cannot_approve
    (policy : List PolicyStep) (now versionId currentUser : Nat)
    (version : DocumentVersion) (approvals : List Approval)
    (m : ProjectMember) (commenters : List Nat) (tasks : List WTask)
    (comment evidence : Option String)
    (hstate : version.state = "IN_REVIEW")
    (hact : m.isActive now = true)
    (hpend : (firstMinByStep (pendingForRole approvals m.role_code)).isSome = true)
    (hauthor : version.created_by = currentUser) :
    ∃ e, approve_version policy now versionId version approvals (some m)
        commenters tasks currentUser comment evidence = .error e ∧
      e.isSoDDenied = true := by
  cases hp : firstMinByStep (pendingForRole approvals m.role_code) with
  | none => rw [hp] at hpend; simp at hpend
  | some p =>
    by_cases htemp : m.is_temporary
    · exact ⟨.temporaryMemberSoD,
        by simp [approve_version, hstate, hact, htemp], rfl⟩
    · exact ⟨.authorSoD,
        by simp [approve_version, hstate, hact, htemp, hp, hauthor], rfl⟩

theorem author_cannot_approve_witness :
    ∃ e, approve_version policyPDD 20 7 ⟨"IN_REVIEW", 1, some 10, none⟩
        [pendingStep 1 "Architect"] (some (memberOf 1 "Architect")) [] [] 1
        none none = .error e ∧ e.isSoDDenied = true :=
  author_cannot_approve policyPDD 20 7 1 ⟨"IN_REVIEW", 1, some 10, none⟩
    [pendingStep 1 "Architect"] (memberOf 1 "Architect") [] [] none none
    rfl rfl (by decide) rfl

/-- C5.  A project membership with is_temporary never approves: whenever
the version is in review, an acting user whose membership is temporary is
stopped before any approval is recorded, with the temporary-member SoD
PermissionDenied when the membership is unexpired, and with the
403-Forbidden membership guard when it has expired; both are 403 and in
neither case is any state returned. -/
theorem temporary_member_cannot_approve
    (policy : List PolicyStep) (now versionId currentUser : Nat)
    (version : DocumentVersion) (approvals : List Approval)
    (m : ProjectMember) (commenters : List Nat) (tasks : List WTask)
    (comment evidence : Option String)
    (hstate : version.state = "IN_REVIEW")
    (htemp : m.is_temporary = true) :
    approve_version policy now versionId version approvals (some m)
        commenters tasks currentUser comment evidence =
      .error (if m.isActive now then .temporaryMemberSoD else .notMember) ∧
    ApproveErr.httpStatus
      (if m.isActive now then .temporaryMemberSoD else .notMember) = 403 := by
  constructor
  · by_cases hact : m.isActive now <;>
      simp [approve_version, hstate, htemp, hact]
  · by_cases hact : m.isActive now <;> simp [hact, ApproveErr.httpStatus]

theorem temporary_member_cannot_approve_witness :
    approve_version policyPDD 20 7 ⟨"IN_REVIEW", 1, some 10, none⟩
        [pendingStep 1 "Architect"] (some ⟨4, "Architect", true, none⟩) [] [] 4
        none none = .error .temporaryMemberSoD ∧
    ApproveErr.httpStatus .temporaryMemberSoD = 403 := by
  have h := temporary_member_cannot_approve policyPDD 20 7 4
    ⟨"IN_REVIEW", 1, some 10, none⟩ [pendingStep 1 "Architect"]
    ⟨4, "Architect", true, none⟩ [] [] none none rfl rfl
  simpa using h

/-- C6.  The claim: a successful reject marks the targeted step REJECTED,
cascade-rejects every other still-PENDING step with the annotated reason,
and returns the version to DRAFT.  The api/v1 reject endpoint does all of
this, but the second reject implementation (api/documents.py lines
367-442) rejects only the targeted step: on the same two-step input it
returns the version to DRAFT while leaving step 2 PENDING, with no
annotation anywhere. -/
theorem reject_cascade_divergence :
    (∃ ok, reject_version 40 7 ⟨"IN_REVIEW", 1, some 10, none⟩
        [pendingStep 1 "Architect", pendingStep 2 "Business Owner"]
        (some (memberOf 2 "Architect")) [] 2 "needs work" = .ok ok ∧
      ok.version.state = "DRAFT" ∧
      ok.approvals =
        [⟨1, "Architect", some 2, "REJECTED", some "needs work",
          some 40, none⟩,
         ⟨2, "Business Owner", none, "REJECTED",
          some "Rejected due to rejection at step 1", none, none⟩]) ∧
    api_reject_version 40 ⟨"IN_REVIEW", 1, some 10, none⟩
        [pendingStep 1 "Architect", pendingStep 2 "Business Owner"]
        ["Architect"] 2 "needs work" =
      .ok (⟨"DRAFT", 1, some 10, none⟩,
        [⟨1, "Architect", some 2, "REJECTED", some "needs work",
          some 40, none⟩,
         pendingStep 2 "Business Owner"]) := by
  exact ⟨⟨_, rfl, rfl, rfl⟩, rfl⟩

/-- C7.  The claim: concurrent approve calls on one PENDING step are
serialized by a single conditional write, so exactly one succeeds and the
loser fails StepAlreadyResolved.  The source instead reads the row and
later writes it back unconditionally; under the read-read-write-write
interleaving both calls succeed (first conjunct), whereas the
conditional write the spec mandates would fail the second call on the
same schedule (second conjunct).  No StepAlreadyResolved error exists
anywhere in the source. -/
theorem concurrent_approve_race_both_succeed :
    runRace false [true, false, true, false] =
      ⟨"APPROVED", .succeeded, .succeeded⟩ ∧
    runRace true [true, false, true, false] =
      ⟨"APPROVED", .succeeded, .failed⟩ :=
  ⟨rfl, rfl⟩

/-! RACI task generation (src/backend/app/routers/projects.py,
generate_tasks_from_raci, lines 1318-1584) and the completion
auto-advance of update_project_task (same file, lines 985-1108).  User
ids are modelled as opaque strings; a user id that fails the UUID parse
and a user id absent from the users table both leave the task unassigned,
exactly as in the source. -/

/-- A task row, restricted to the fields the RACI generator and the task
update endpoint touch (app/models/entities.py, class Task).  The id
stands for the primary key; the generator leaves it to the database
default, so freshly generated rows carry 0 here. -/
structure Task where
  id : Nat
  task_type : String
  title : String
  description : String
  raci_stage : Option String
  raci_task_name : Option String
  assigned_to_user_id : Option String
  required_role : Option String
  status : String
  priority : String
  is_blocking : Bool
  completed_at : Option Nat
deriving Repr, DecidableEq

/-- One task cell of the RACI matrix: a task name and its role letters
(a JSON dict, kept in insertion order with unique keys). -/
structure RaciTaskDef where
  task : String
  roles : List (String × String)
deriving Repr, DecidableEq

/-- One stage of the RACI matrix. -/
structure RaciStageDef where
  stage : String
  tasks : List RaciTaskDef
deriving Repr, DecidableEq

/-- The RACI matrix JSON of the project: stages plus the role_assignments
dict (role name to user id). -/
structure RaciMatrix where
  stages : List RaciStageDef
  role_assignments : List (String × String)
deriving Repr, DecidableEq

/-- Request payload and database context of one generate call: the
task_prefix, priority and task_type fields of GenerateTasksFromRACIRequest
(app/schemas/tasks.py; the latter only feeds the unreachable fallback
branch), the active project members by role (built by
_get_team_members_dict) and the ids of the users that exist in the users
table. -/
structure GenEnv where
  pfx : String
  priority : String
  task_type : String
  team_members : List (String × String)
  users : List String
deriving Repr, DecidableEq

/-- The entry of responsible_roles built for one (role, letter) cell. -/
structure RoleInfo where
  role : String
  raci_value : String
  user_id : Option String
deriving Repr, DecidableEq

/-- One element of the created_tasks report list. -/
structure CreatedRec where
  title : String
  stage : String
  task : String
  role : String
deriving Repr, DecidableEq

/-- One element of the skipped_tasks report list. -/
structure SkippedRec where
  stage : String
  task : String
  role : String
  reason : String
deriving Repr, DecidableEq

/-- The session state threaded through the generation loop: the task
rows visible to queries (adds are visible at once through autoflush) and
the two report lists. -/
structure GenState where
  tasks : List Task
  created : List CreatedRec
  skipped : List SkippedRec
deriving Repr, DecidableEq

/-- Python regex whitespace, for the TG pattern. -/
def isPySpace (c : Char) : Bool :=
  c = ' ' || c = '\t' || c = '\n' || c = '\r' || c = '\x0b' || c = '\x0c'

/-- re.match of the pattern TG backslash-s star, open paren, TG
backslash-s star, digits, close paren, case-insensitive and anchored at
the start only: returns the captured digit group.  Greedy digits followed
by the literal close paren, trailing text allowed. -/
def tgMatch (s : String) : Option String :=
  match s.data with
  | c1 :: c2 :: rest =>
    if c1.toUpper = 'T' ∧ c2.toUpper = 'G' then
      match rest.dropWhile isPySpace with
      | '(' :: c3 :: c4 :: rest2 =>
        if c3.toUpper = 'T' ∧ c4.toUpper = 'G' then
          let rest3 := rest2.dropWhile isPySpace
          let digits := rest3.takeWhile Char.isDigit
          match digits, rest3.dropWhile Char.isDigit with
          | _ :: _, ')' :: _ => some (String.mk digits)
          | _, _ => none
        else none
      | _ => none
    else none
  | _ => none

/-- Assignee resolution of the first loop: role_assignments first, then
the active team member holding the role. -/
def resolveUser (ras team : List (String × String)) (role : String) :
    Option String :=
  match ras.lookup role with
  | some uid => some uid
  | none => team.lookup role

/-- The sort key: R first (Creation), then C (Review), then A (Approval). -/
def raciPriority (v : String) : Nat :=
  if v = "R" then 1 else if v = "C" then 2 else if v = "A" then 3 else 99

/-- responsible_roles.sort by raciPriority; Python list.sort is stable,
which on this four-valued key is grouping in key order. -/
def sortRoles (rs : List RoleInfo) : List RoleInfo :=
  rs.filter (fun r => raciPriority r.raci_value = 1) ++
  rs.filter (fun r => raciPriority r.raci_value = 2) ++
  rs.filter (fun r => raciPriority r.raci_value = 3) ++
  rs.filter (fun r => raciPriority r.raci_value = 99)

/-- The f-string with the optional task_prefix: the empty string is falsy,
so it is prepended only when nonempty (which equals plain prepending). -/
def withPfx (pfx s : String) : String :=
  if pfx = "" then s else pfx ++ s

/-- Title, task type and description derived from the RACI letter
(routers/projects.py lines 1442-1474), including the TG-pattern special
case for Responsible and the unreachable fallback branch. -/
def deriveTaskFields (env : GenEnv) (stage_name task_name : String)
    (ri : RoleInfo) : String × String × String :=
  if ri.raci_value = "A" then
    (withPfx env.pfx (task_name ++ " Approval"), "APPROVAL",
     "Final approval/sign-off for " ++ task_name ++ " in " ++ stage_name ++
       " stage. Accountable role: " ++ ri.role)
  else if ri.raci_value = "R" then
    let title :=
      match tgMatch task_name with
      | some n => withPfx env.pfx ("TG " ++ n ++ " Trial")
      | none => withPfx env.pfx (task_name ++ " Creation")
    (title, "DEVELOPMENT",
     "Create " ++ task_name ++ " in " ++ stage_name ++
       " stage. Responsible role: " ++ ri.role)
  else if ri.raci_value = "C" then
    (withPfx env.pfx (task_name ++ " Review"), "REVIEW",
     "Review and provide input for " ++ task_name ++ " in " ++ stage_name ++
       " stage. Consulted role: " ++ ri.role)
  else
    (withPfx env.pfx (task_name ++ " - " ++ ri.role), env.task_type,
     "Auto-generated task for " ++ stage_name ++ " / " ++ task_name ++
       " - Role: " ++ ri.role ++ " (" ++ ri.raci_value ++ ")")

/-- The dedup query on the natural RACI key (stage, task, role). -/
def existsByRaci (tasks : List Task) (stage task role : String) : Bool :=
  tasks.any (fun t =>
    t.raci_stage = some stage && t.raci_task_name = some task &&
      t.required_role = some role)

/-- The dedup query on the derived title. -/
def existsByTitle (tasks : List Task) (title : String) : Bool :=
  tasks.any (fun t => t.title = title)

/-- Verification of the resolved assignee against the users table;
missing users (and unparsable ids) leave the task unassigned. -/
def verifyUser (users : List String) : Option String → Option String
  | none => none
  | some uid => if users.contains uid then some uid else none

/-- The body of the inner role loop (routers/projects.py lines
1437-1552): derive the fields, skip when either dedup query matches,
otherwise add the new OPEN task and record it as created. -/
def processRole (env : GenEnv) (stage_name task_name : String)
    (st : GenState) (ri : RoleInfo) : GenState :=
  let fields := deriveTaskFields env stage_name task_name ri
  if existsByRaci st.tasks stage_name task_name ri.role ||
      existsByTitle st.tasks fields.1 then
    { st with skipped := st.skipped ++
        [⟨stage_name, task_name, ri.role, "Task already exists"⟩] }
  else
    let newTask : Task :=
      { id := 0, task_type := fields.2.1, title := fields.1,
        description := fields.2.2, raci_stage := some stage_name,
        raci_task_name := some task_name,
        assigned_to_user_id := verifyUser env.users ri.user_id,
        required_role := some ri.role, status := "OPEN",
        priority := env.priority,
        is_blocking := ri.raci_value == "A", completed_at := none }
    { st with tasks := st.tasks ++ [newTask],
              created := st.created ++
                [⟨fields.1, stage_name, task_name, ri.role⟩] }

/-- responsible_roles of one RACI task cell: the R/A/C cells with their
resolved assignee, in sorted order. -/
def roleInfosFor (ras : List (String × String)) (env : GenEnv)
    (rt : RaciTaskDef) : List RoleInfo :=
  sortRoles ((rt.roles.filter (fun rv =>
      rv.2 = "R" || rv.2 = "A" || rv.2 = "C")).map
    (fun rv => ⟨rv.1, rv.2, resolveUser ras env.team_members rv.1⟩))

def processRaciTask (env : GenEnv) (ras : List (String × String))
    (stage_name : String) (st : GenState) (rt : RaciTaskDef) : GenState :=
  (roleInfosFor ras env rt).foldl (processRole env stage_name rt.task) st

def processStage (env : GenEnv) (ras : List (String × String))
    (st : GenState) (sd : RaciStageDef) : GenState :=
  sd.tasks.foldl (processRaciTask env ras sd.stage) st

/-- Embedding of generate_tasks_from_raci: iterate the matrix stages and
tasks over the starting task set, threading the report lists. -/
def generate_tasks_from_raci (env : GenEnv) (matrix : RaciMatrix)
    (tasks0 : List Task) : GenState :=
  matrix.stages.foldl (processStage env matrix.role_assignments)
    ⟨tasks0, [], []⟩

/-! The generation loop, flattened: the nested stage/task/role iteration
equals one left fold over the flat candidate list, which the dedup and
idempotence lemmas quantify over. -/

/-- One candidate of a generation run: a stage name, a task name and one
responsible_roles entry, in processing order. -/
structure Cand where
  stage : String
  task : String
  info : RoleInfo
deriving Repr, DecidableEq

def processCand (env : GenEnv) (st : GenState) (c : Cand) : GenState :=
  processRole env c.stage c.task st c.info

def taskCands (ras : List (String × String)) (env : GenEnv)
    (stage_name : String) (rt : RaciTaskDef) : List Cand :=
  (roleInfosFor ras env rt).map (fun ri => ⟨stage_name, rt.task, ri⟩)

def stageCands (ras : List (String × String)) (env : GenEnv)
    (sd : RaciStageDef) : List Cand :=
  sd.tasks.flatMap (taskCands ras env sd.stage)

def matrixCands (env : GenEnv) (matrix : RaciMatrix) : List Cand :=
  matrix.stages.flatMap (stageCands matrix.role_assignments env)

theorem foldl_flatMap {α β γ : Type _} (g : α → List β) (f : γ → β → γ)
    (l : List α) (i : γ) :
    (l.flatMap g).foldl f i = l.foldl (fun s x => (g x).foldl f s) i := by
  induction l generalizing i with
  | nil => rfl
  | cons a t ih =>
    simp [List.flatMap_cons, List.foldl_append, List.foldl_cons, ih]

theorem processRaciTask_eq_foldl (env : GenEnv) (ras : List (String × String))
    (stage : String) (st : GenState) (rt : RaciTaskDef) :
    processRaciTask env ras stage st rt =
      (taskCands ras env stage rt).foldl (processCand env) st := by
  unfold processRaciTask taskCands
  rw [List.foldl_map]
  rfl

theorem processStage_eq_foldl (env : GenEnv) (ras : List (String × String))
    (st : GenState) (sd : RaciStageDef) :
    processStage env ras st sd =
      (stageCands ras env sd).foldl (processCand env) st := by
  unfold processStage stageCands
  rw [foldl_flatMap]
  exact List.foldl_ext _ _ st
    (fun s rt _ => processRaciTask_eq_foldl env ras sd.stage s rt)

theorem generate_eq_foldl (env : GenEnv) (matrix : RaciMatrix)
    (tasks0 : List Task) :
    generate_tasks_from_raci env matrix tasks0 =
      (matrixCands env matrix).foldl (processCand env) ⟨tasks0, [], []⟩ := by
  unfold generate_tasks_from_raci matrixCands
  rw [foldl_flatMap]
  exact List.foldl_ext _ _ _
    (fun s sd _ => processStage_eq_foldl env matrix.role_assignments s sd)

/-- The title a candidate would be created under. -/
def candTitle (env : GenEnv) (c : Cand) : String :=
  (deriveTaskFields env c.stage c.task c.info).1

/-- A candidate is blocked in a task set when either dedup query matches:
its natural key (stage, task, role) or its derived title already exists. -/
def blocked (env : GenEnv) (tasks : List Task) (c : Cand) : Bool :=
  existsByRaci tasks c.stage c.task c.info.role ||
    existsByTitle tasks (candTitle env c)

/-- The record appended to skipped_tasks for a blocked candidate. -/
def skipRec (c : Cand) : SkippedRec :=
  ⟨c.stage, c.task, c.info.role, "Task already exists"⟩

theorem processCand_skip (env : GenEnv) (st : GenState) (c : Cand)
    (h : blocked env st.tasks c = true) :
    processCand env st c = { st with skipped := st.skipped ++ [skipRec c] } := by
  unfold blocked candTitle at h
  unfold processCand processRole skipRec
  rw [if_pos h]

theorem processCand_tasks_ext (env : GenEnv) (st : GenState) (c : Cand) :
    ∃ ext, (processCand env st c).tasks = st.tasks ++ ext := by
  unfold processCand processRole
  dsimp only
  split
  · exact ⟨[], by simp⟩
  · exact ⟨[_], rfl⟩

theorem blocked_mono (env : GenEnv) (tasks ext : List Task) (c : Cand)
    (h : blocked env tasks c = true) :
    blocked env (tasks ++ ext) c = true := by
  unfold blocked existsByRaci existsByTitle at h ⊢
  simp only [List.any_append, Bool.or_eq_true] at h ⊢
  tauto

theorem processCand_blocks (env : GenEnv) (st : GenState) (c : Cand) :
    blocked env (processCand env st c).tasks c = true := by
  by_cases h : blocked env st.tasks c = true
  · rw [processCand_skip env st c h]
    exact h
  · have h' := eq_false_of_ne_true h
    unfold blocked candTitle at h'
    unfold processCand processRole
    rw [if_neg (by simp [h'])]
    unfold blocked existsByRaci
    simp

theorem foldl_tasks_ext (env : GenEnv) (cands : List Cand) (st : GenState) :
    ∃ ext, ((cands.foldl (processCand env) st).tasks = st.tasks ++ ext) := by
  induction cands generalizing st with
  | nil => exact ⟨[], by simp⟩
  | cons c cs ih =>
    obtain ⟨e1, h1⟩ := processCand_tasks_ext env st c
    obtain ⟨e2, h2⟩ := ih (processCand env st c)
    exact ⟨e1 ++ e2, by rw [List.foldl_cons, h2, h1, List.append_assoc]⟩

theorem foldl_blocks_all (env : GenEnv) (cands : List Cand) (st : GenState) :
    ∀ c ∈ cands, blocked env ((cands.foldl (processCand env) st).tasks) c = true := by
  induction cands generalizing st with
  | nil => intro c hc; cases hc
  | cons d ds ih =>
    intro c hc
    rw [List.foldl_cons]
    rcases List.mem_cons.1 hc with rfl | hmem
    · obtain ⟨ext, hext⟩ := foldl_tasks_ext env ds (processCand env st c)
      rw [hext]
      exact blocked_mono env _ ext c (processCand_blocks env st c)
    · exact ih (processCand env st d) c hmem

theorem foldl_all_blocked_skips (env : GenEnv) (cands : List Cand)
    (st : GenState) (h : ∀ c ∈ cands, blocked env st.tasks c = true) :
    cands.foldl (processCand env) st =
      { st with skipped := st.skipped ++ cands.map skipRec } := by
  induction cands generalizing st with
  | nil => simp
  | cons d ds ih =>
    rw [List.foldl_cons, processCand_skip env st d (h d (List.mem_cons_self d ds))]
    rw [ih { st with skipped := st.skipped ++ [skipRec d] }
      (fun c hc => h c (List.mem_cons_of_mem d hc))]
    simp

/-- C9.  Generation is idempotent: a second run over the unchanged matrix
and the task set produced by the first run creates nothing, changes no
task, and reports every candidate of the matrix as skipped with reason
Task already exists, because after the first run every candidate is
blocked by either its natural key (when its task was created) or its
title (when it was already skipped), and both dedup checks are monotone
in the task set. -/
theorem raci_generation_idempotent (env : GenEnv) (matrix : RaciMatrix)
    (tasks0 : List Task) :
    (generate_tasks_from_raci env matrix
        (generate_tasks_from_raci env matrix tasks0).tasks).created = [] ∧
    (generate_tasks_from_raci env matrix
        (generate_tasks_from_raci env matrix tasks0).tasks).tasks =
      (generate_tasks_from_raci env matrix tasks0).tasks ∧
    (generate_tasks_from_raci env matrix
        (generate_tasks_from_raci env matrix tasks0).tasks).skipped =
      (matrixCands env matrix).map skipRec := by
  have hall : ∀ c ∈ matrixCands env matrix,
      blocked env (generate_tasks_from_raci env matrix tasks0).tasks c = true := by
    intro c hc
    rw [generate_eq_foldl]
    exact foldl_blocks_all env (matrixCands env matrix) ⟨tasks0, [], []⟩ c hc
  rw [generate_eq_foldl env matrix
    (generate_tasks_from_raci env matrix tasks0).tasks]
  rw [foldl_all_blocked_skips env (matrixCands env matrix)
    ⟨(generate_tasks_from_raci env matrix tasks0).tasks, [], []⟩ hall]
  simp

/-- The raw (stage, task, role, letter) cells of a matrix. -/
def raciEntries (matrix : RaciMatrix) :
    List (String × String × String × String) :=
  matrix.stages.flatMap (fun sd => sd.tasks.flatMap (fun rt =>
    rt.roles.map (fun rv => (sd.stage, rt.task, rv.1, rv.2))))

theorem mem_sortRoles {ri : RoleInfo} {rs : List RoleInfo}
    (h : ri ∈ sortRoles rs) : ri ∈ rs := by
  unfold sortRoles at h
  simp only [List.mem_append, List.mem_filter] at h
  tauto

theorem processCand_created (env : GenEnv) (st : GenState) (c : Cand) :
    (processCand env st c).created = st.created ∨
    (processCand env st c).created =
      st.created ++ [⟨candTitle env c, c.stage, c.task, c.info.role⟩] := by
  unfold processCand processRole
  dsimp only
  split
  · exact Or.inl rfl
  · exact Or.inr rfl

theorem foldl_created_from (env : GenEnv) (cands : List Cand) (st : GenState) :
    ∀ r ∈ (cands.foldl (processCand env) st).created,
      r ∈ st.created ∨ ∃ c ∈ cands,
        r = ⟨candTitle env c, c.stage, c.task, c.info.role⟩ := by
  induction cands generalizing st with
  | nil => intro r hr; exact Or.inl hr
  | cons d ds ih =>
    intro r hr
    rw [List.foldl_cons] at hr
    rcases ih (processCand env st d) r hr with h | ⟨c, hc, rfl⟩
    · rcases processCand_created env st d with he | he
      · rw [he] at h
        exact Or.inl h
      · rw [he] at h
        rcases List.mem_append.1 h with h | h
        · exact Or.inl h
        · exact Or.inr ⟨d, List.mem_cons_self d ds, (List.mem_singleton.1 h)⟩
    · exact Or.inr ⟨c, List.mem_cons_of_mem d hc, rfl⟩

theorem matrixCands_mem (env : GenEnv) (matrix : RaciMatrix) (c : Cand)
    (hc : c ∈ matrixCands env matrix) :
    (c.stage, c.task, c.info.role, c.info.raci_value) ∈ raciEntries matrix ∧
      (c.info.raci_value = "R" ∨ c.info.raci_value = "A" ∨
        c.info.raci_value = "C") := by
  unfold matrixCands stageCands taskCands at hc
  simp only [List.mem_flatMap, List.mem_map] at hc
  obtain ⟨sd, hsd, rt, hrt, ri, hri, rfl⟩ := hc
  unfold roleInfosFor at hri
  have hri' := mem_sortRoles hri
  simp only [List.mem_map, List.mem_filter] at hri'
  obtain ⟨rv, ⟨hrvmem, hrvletter⟩, rfl⟩ := hri'
  constructor
  · simp only [raciEntries, List.mem_flatMap, List.mem_map]
    exact ⟨sd, hsd, rt, hrt, rv, hrvmem, rfl⟩
  · have := hrvletter
    simp only [Bool.or_eq_true, decide_eq_true_eq] at this
    tauto

theorem append_ne_of_suffix_ne (t a b : String) (h : a ≠ b) :
    t ++ a ≠ t ++ b := by
  intro hc
  have hd : t.data ++ a.data = t.data ++ b.data := by
    simpa [String.data_append] using congrArg String.data hc
  exact h (String.ext (List.append_cancel_left hd))

/-- C8.  First conjunct: every record of created_tasks stems from a
matrix cell whose letter is R, A or C, so a role marked only I for a
(stage, task) never yields a task.  Second conjunct: for a matrix holding
one task with roles X Responsible and Y Accountable (distinct roles, no
TG-pattern name, no prefix), generation from an empty task set creates
exactly two tasks, the DEVELOPMENT task titled with suffix Creation
first and the blocking APPROVAL task titled with suffix Approval second. -/
theorem raci_letters_and_two_task_scenario :
    (∀ (env : GenEnv) (matrix : RaciMatrix) (tasks0 : List Task),
      ∀ r ∈ (generate_tasks_from_raci env matrix tasks0).created,
        ∃ letter, (letter = "R" ∨ letter = "A" ∨ letter = "C") ∧
          (r.stage, r.task, r.role, letter) ∈ raciEntries matrix) ∧
    (∀ s t X Y : String, tgMatch t = none → X ≠ Y →
      generate_tasks_from_raci ⟨"", "NORMAL", "GENERAL", [], []⟩
          ⟨[⟨s, [⟨t, [(X, "R"), (Y, "A")]⟩]⟩], []⟩ [] =
        ⟨[⟨0, "DEVELOPMENT", t ++ " Creation",
            "Create " ++ t ++ " in " ++ s ++ " stage. Responsible role: " ++ X,
            some s, some t, none, some X, "OPEN", "NORMAL", false, none⟩,
          ⟨0, "APPROVAL", t ++ " Approval",
            "Final approval/sign-off for " ++ t ++ " in " ++ s ++
              " stage. Accountable role: " ++ Y,
            some s, some t, none, some Y, "OPEN", "NORMAL", true, none⟩],
         [⟨t ++ " Creation", s, t, X⟩, ⟨t ++ " Approval", s, t, Y⟩],
         []⟩) := by
  constructor
  · intro env matrix tasks0 r hr
    rw [generate_eq_foldl] at hr
    rcases foldl_created_from env (matrixCands env matrix) ⟨tasks0, [], []⟩ r hr with
      h | ⟨c, hc, rfl⟩
    · cases h
    · obtain ⟨hmem, hletter⟩ := matrixCands_mem env matrix c hc
      exact ⟨c.info.raci_value, hletter, hmem⟩
  · intro s t X Y htg hxy
    have hne : (t ++ " Creation") ≠ (t ++ " Approval") :=
      append_ne_of_suffix_ne t _ _ (by decide)
    have hyx : Y ≠ X := Ne.symm hxy
    simp [generate_tasks_from_raci, processStage, processRaciTask,
      roleInfosFor, sortRoles, raciPriority, processRole, deriveTaskFields,
      existsByRaci, existsByTitle, resolveUser, verifyUser, withPfx,
      htg, hne, hxy, hyx]

theorem raci_two_task_scenario_witness :
    tgMatch "SDD" = none ∧
    generate_tasks_from_raci ⟨"", "NORMAL", "GENERAL", [], []⟩
        ⟨[⟨"Design",
           [⟨"SDD", [("RegularDeveloper", "R"), ("SolutionArchitect", "A")]⟩]⟩],
         []⟩ [] =
      ⟨[⟨0, "DEVELOPMENT", "SDD Creation",
          "Create SDD in Design stage. Responsible role: RegularDeveloper",
          some "Design", some "SDD", none, some "RegularDeveloper",
          "OPEN", "NORMAL", false, none⟩,
        ⟨0, "APPROVAL", "SDD Approval",
          "Final approval/sign-off for SDD in Design stage. Accountable role: SolutionArchitect",
          some "Design", some "SDD", none, some "SolutionArchitect",
          "OPEN", "NORMAL", true, none⟩],
       [⟨"SDD Creation", "Design", "SDD", "RegularDeveloper"⟩,
        ⟨"SDD Approval", "Design", "SDD", "SolutionArchitect"⟩],
       []⟩ := by
  refine ⟨by decide, ?_⟩
  have h := raci_letters_and_two_task_scenario.2 "Design" "SDD"
    "RegularDeveloper" "SolutionArchitect" (by decide) (by decide)
  exact h.trans (by decide)

/-! Completion auto-advance (routers/projects.py, update_project_task,
lines 985-1108), embedded for the payload that sets status COMPLETED. -/

/-- Python truthiness of a nullable string column: null and the empty
string are both falsy. -/
def isTruthy : Option String → Bool
  | none => false
  | some s => s ≠ ""

/-- str.endswith of Python, over the character lists of the two
strings. -/
def strEndsWith (s suff : String) : Bool :=
  List.isSuffixOf suff.data s.data

/-- UPDATE of the first row matched by a query: replace the first list
element satisfying the predicate. -/
def updateFirstTask (p : Task → Bool) (f : Task → Task) :
    List Task → List Task
  | [] => []
  | t :: ts => if p t then f t :: ts else t :: updateFirstTask p f ts

/-- The sibling query of the auto-advance: same raci_stage as the
completed task, same raci_task_name, the derived title, and status OPEN. -/
def siblingQuery (stg : Option String) (base title : String)
    (u : Task) : Bool :=
  u.raci_stage = stg && u.raci_task_name = some base &&
    u.title = title && u.status = "OPEN"

/-- Embedding of update_project_task for the payload that only sets
status to COMPLETED: the task is fetched by id (none models the 404),
its status and completed_at are written, and when it carries truthy RACI
fields the title-suffix convention advances the first matching sibling,
Creation to Review or Review to Approval, from OPEN to IN_PROGRESS. -/
def update_project_task_completed (now : Nat) (tasks : List Task)
    (tid : Nat) : Option (List Task) :=
  match tasks.find? (fun u => u.id = tid) with
  | none => none
  | some t =>
    let t' := { t with status := "COMPLETED", completed_at := some now }
    let tasks1 := updateFirstTask (fun u => u.id = tid) (fun _ => t') tasks
    if isTruthy t.raci_stage && isTruthy t.raci_task_name then
      match t.raci_task_name with
      | some base =>
        if strEndsWith t.title " Creation" then
          some (updateFirstTask
            (siblingQuery t.raci_stage base (base ++ " Review"))
            (fun u => { u with status := "IN_PROGRESS" }) tasks1)
        else if strEndsWith t.title " Review" then
          some (updateFirstTask
            (siblingQuery t.raci_stage base (base ++ " Approval"))
            (fun u => { u with status := "IN_PROGRESS" }) tasks1)
        else some tasks1
      | none => some tasks1
    else some tasks1

theorem find?_first {α : Type _} (p : α → Bool) (l1 l2 : List α) (t : α)
    (h1 : ∀ u ∈ l1, p u = false) (ht : p t = true) :
    (l1 ++ t :: l2).find? p = some t := by
  induction l1 with
  | nil => simp [List.find?_cons, ht]
  | cons a l ih =>
    have ha := h1 a (List.mem_cons_self a l)
    simp only [List.cons_append, List.find?_cons, ha]
    exact ih (fun u hu => h1 u (List.mem_cons_of_mem a hu))

theorem updateFirstTask_append (p : Task → Bool) (f : Task → Task)
    (l1 l2 : List Task) (t : Task)
    (h1 : ∀ u ∈ l1, p u = false) (ht : p t = true) :
    updateFirstTask p f (l1 ++ t :: l2) = l1 ++ f t :: l2 := by
  induction l1 with
  | nil => simp [updateFirstTask, ht]
  | cons a l ih =>
    have ha := h1 a (List.mem_cons_self a l)
    simp only [List.cons_append, updateFirstTask, ha]
    simp only [Bool.false_eq_true, if_false, List.cons.injEq, true_and]
    exact ih (fun u hu => h1 u (List.mem_cons_of_mem a hu))

/-- C10.  Completing a RACI-linked task advances exactly one sibling and
touches nothing else.  The completed task is the first row with the
requested id (t, preceded by l1 without that id); it carries nonempty
RACI fields; its title ends in Creation with the sibling title suffix
Review, or ends in Review with the sibling title suffix Approval.  The
task set after writing the completion decomposes as m1, the first row
matching the sibling query, m2; the endpoint then returns exactly that
set with the sibling moved to IN_PROGRESS: m1 and m2 are returned
unchanged, so the status of no other row changes, and the sibling was OPEN
(last conjunct of the sibling query). -/
theorem task_completion_auto_advances_sibling
    (now tid : Nat) (l1 l2 m1 m2 : List Task) (t sib : Task)
    (stg base nextTitle : String)
    (hl1 : ∀ u ∈ l1, (decide (u.id = tid)) = false)
    (ht : t.id = tid)
    (hstg : t.raci_stage = some stg) (hstgne : stg ≠ "")
    (hbase : t.raci_task_name = some base) (hbasene : base ≠ "")
    (hcase : (strEndsWith t.title " Creation" = true ∧
              nextTitle = base ++ " Review") ∨
             (strEndsWith t.title " Creation" = false ∧
              strEndsWith t.title " Review" = true ∧
              nextTitle = base ++ " Approval"))
    (hm : l1 ++ ({ t with status := "COMPLETED", completed_at := some now } : Task) :: l2 = m1 ++ sib :: m2)
    (hm1 : ∀ u ∈ m1, siblingQuery (some stg) base nextTitle u = false)
    (hsib : siblingQuery (some stg) base nextTitle sib = true) :
    update_project_task_completed now (l1 ++ t :: l2) tid =
      some (m1 ++ ({ sib with status := "IN_PROGRESS" } : Task) :: m2) ∧
    sib.status = "OPEN" := by
  have hfind : (l1 ++ t :: l2).find? (fun u => u.id = tid) = some t :=
    find?_first _ l1 l2 t hl1 (by simp [ht])
  have hupd1 : updateFirstTask (fun u => u.id = tid)
      (fun _ => { t with status := "COMPLETED", completed_at := some now })
      (l1 ++ t :: l2) =
      l1 ++ ({ t with status := "COMPLETED", completed_at := some now } : Task) :: l2 :=
    updateFirstTask_append _ _ l1 l2 t hl1 (by simp [ht])
  have hopen : sib.status = "OPEN" := by
    have := hsib
    simp only [siblingQuery, Bool.and_eq_true, decide_eq_true_eq] at this
    exact this.2
  refine ⟨?_, hopen⟩
  rw [hstg, hbase] at hupd1 hm
  unfold update_project_task_completed
  rw [hfind]
  simp only [hstg, hbase, isTruthy]
  rw [if_pos (by simp [hstgne, hbasene])]
  rcases hcase with ⟨hc1, rfl⟩ | ⟨hc0, hc1, rfl⟩
  · rw [hc1]
    simp only [if_true]
    rw [hupd1, hm]
    rw [updateFirstTask_append _ _ m1 m2 sib hm1 hsib]
  · rw [hc0, hc1]
    simp only [Bool.false_eq_true, if_false, if_true]
    rw [hupd1, hm]
    rw [updateFirstTask_append _ _ m1 m2 sib hm1 hsib]

/-- A three-task RACI chain for the witness: Creation in progress,
Review and Approval open. -/
def demoCreation : Task :=
  ⟨1, "DEVELOPMENT", "SDD Creation", "", some "Design", some "SDD",
   none, some "RegularDeveloper", "IN_PROGRESS", "NORMAL", false, none⟩

def demoReview : Task :=
  ⟨2, "REVIEW", "SDD Review", "", some "Design", some "SDD",
   none, some "QA Officer", "OPEN", "NORMAL", false, none⟩

def demoApproval : Task :=
  ⟨3, "APPROVAL", "SDD Approval", "", some "Design", some "SDD",
   none, some "SolutionArchitect", "OPEN", "NORMAL", true, none⟩

theorem task_completion_auto_advances_sibling_witness :
    update_project_task_completed 50
        [demoCreation, demoReview, demoApproval] 1 =
      some [{ demoCreation with status := "COMPLETED", completed_at := some 50 },
            { demoReview with status := "IN_PROGRESS" },
            demoApproval] ∧
    demoReview.status = "OPEN" := by
  have h := task_completion_auto_advances_sibling 50 1 []
    [demoReview, demoApproval]
    [{ demoCreation with status := "COMPLETED", completed_at := some 50 }]
    [demoApproval] demoCreation demoReview "Design" "SDD" "SDD Review"
    (by intro u hu; cases hu) rfl rfl (by decide) rfl (by decide)
    (Or.inl ⟨by decide, rfl⟩) rfl
    (by intro u hu
        rcases List.mem_singleton.1 hu with rfl
        decide)
    (by decide)
  simpa using h

end DMSGov
